import Mathlib

/-!
Shallow embedding of the structural pattern-dictionary codec found in
`cleanup/test_artifacts/multi_language_compression_test.py` of the NEXUS
repository.  Python strings are modelled as `List Char`; Python dicts
(insertion-ordered) are modelled as association lists that append fresh
keys at the end; the `{}` returned by `simulate_compression` on empty
input is modelled as `none`.
-/

namespace Nexus

/-- Python `str.lower`, restricted to the ASCII data the codec handles. -/
def pyLower (s : List Char) : List Char := s.map Char.toLower

/-- Python `str.upper`, restricted to the ASCII data the codec handles. -/
def pyUpper (s : List Char) : List Char := s.map Char.toUpper

/-- Python `str.title` as it behaves on the single lowercase words of the
abbreviation table: capitalize the first character. -/
def pyTitle : List Char → List Char
  | [] => []
  | c :: rest => Char.toUpper c :: rest

/-- Python `str.strip`: remove leading and trailing whitespace. -/
def pyStrip (s : List Char) : List Char :=
  ((s.dropWhile Char.isWhitespace).reverse.dropWhile Char.isWhitespace).reverse

/-- Python substring containment `pat in s`. -/
def containsSub (pat : List Char) : List Char → Bool
  | [] => pat.isEmpty
  | c :: rest => pat.isPrefixOf (c :: rest) || containsSub pat rest

/-- Worker for `replaceAll`; the fuel argument only bounds the recursion and is
always at least the length of the subject string, so it never cuts a run short
(each step consumes at least one character). -/
def replaceAllFuel : Nat → List Char → List Char → List Char → List Char
  | 0, s, _, _ => s
  | _ + 1, [], _, _ => []
  | f + 1, c :: rest, pat, rep =>
    if pat ≠ [] ∧ pat.isPrefixOf (c :: rest) then
      rep ++ replaceAllFuel f (rest.drop (pat.length - 1)) pat rep
    else
      c :: replaceAllFuel f rest pat rep

/-- Python `s.replace(pat, rep)`: replace all non-overlapping occurrences, left
to right.  Every call site passes a non-empty `pat` from a fixed table. -/
def replaceAll (s pat rep : List Char) : List Char :=
  replaceAllFuel s.length s pat rep

/-- The `common_patterns` abbreviation table of `compress_value`, in Python
dict insertion order (the source lists `override`, `abstract` and `interface`
twice; a Python dict literal keeps the first position for a repeated key). -/
def common_patterns : List (List Char × List Char) :=
  [ ("function".data, "fn".data)
  , ("return".data, "ret".data)
  , ("variable".data, "var".data)
  , ("constant".data, "const".data)
  , ("public".data, "pub".data)
  , ("private".data, "priv".data)
  , ("protected".data, "prot".data)
  , ("interface".data, "iface".data)
  , ("implementation".data, "impl".data)
  , ("namespace".data, "ns".data)
  , ("exception".data, "exc".data)
  , ("parameter".data, "param".data)
  , ("argument".data, "arg".data)
  , ("dictionary".data, "dict".data)
  , ("array".data, "arr".data)
  , ("string".data, "str".data)
  , ("integer".data, "int".data)
  , ("boolean".data, "bool".data)
  , ("floating".data, "float".data)
  , ("character".data, "char".data)
  , ("pointer".data, "ptr".data)
  , ("reference".data, "ref".data)
  , ("iterator".data, "iter".data)
  , ("template".data, "tpl".data)
  , ("generic".data, "gen".data)
  , ("abstract".data, "abs".data)
  , ("virtual".data, "virt".data)
  , ("static".data, "stat".data)
  , ("final".data, "fin".data)
  , ("override".data, "ovr".data)
  , ("synchronized".data, "sync".data)
  , ("volatile".data, "vol".data)
  , ("transient".data, "trans".data)
  , ("native".data, "nat".data)
  , ("strictfp".data, "strict".data)
  , ("enumeration".data, "enum".data)
  , ("annotation".data, "ann".data)
  , ("deprecated".data, "dep".data)
  , ("suppress".data, "sup".data)
  , ("package".data, "pkg".data)
  , ("import".data, "imp".data)
  , ("export".data, "exp".data)
  , ("default".data, "def".data)
  , ("extends".data, "ext".data)
  , ("implements".data, "impl".data)
  , ("throws".data, "thr".data)
  , ("try".data, "try".data)
  , ("catch".data, "cat".data)
  , ("finally".data, "fin".data)
  , ("throw".data, "thr".data)
  , ("new".data, "new".data)
  , ("this".data, "this".data)
  , ("super".data, "super".data)
  , ("null".data, "null".data)
  , ("true".data, "true".data)
  , ("false".data, "false".data) ]

/-- One iteration of the abbreviation loop in `compress_value`: when the
lowercased working text contains the pattern, replace its lower, Title and
UPPER case spellings (the Title branch also uses the lowercase replacement,
exactly as the source does). -/
def abbrevStep (s : List Char) (pr : List Char × List Char) : List Char :=
  if containsSub pr.1 (pyLower s) then
    replaceAll (replaceAll (replaceAll s pr.1 pr.2) (pyTitle pr.1) pr.2)
      (pyUpper pr.1) (pyUpper pr.2)
  else s

/-- The full abbreviation pass of `compress_value`. -/
def applyAbbrevs (s : List Char) : List Char :=
  common_patterns.foldl abbrevStep s

/-- The `prefixes_to_remove` list of `compress_value`, in source order. -/
def pfxList : List (List Char) :=
  [ "get".data, "set".data, "is".data, "has".data, "can".data
  , "should".data, "will".data, "do".data ]

/-- One iteration of the prefix-stripping loop of `compress_value`:
`if compressed.lower().startswith(p) and len(compressed) > len(p) + 2`. -/
def stripOne (s p : List Char) : List Char :=
  if p.isPrefixOf (pyLower s) ∧ s.length > p.length + 2 then
    s.drop p.length
  else s

/-- The full prefix-stripping pass of `compress_value` (each prefix tried once,
in order, against the current working text). -/
def stripPfxs (s : List Char) : List Char :=
  pfxList.foldl stripOne s

/-- `compress_value` from the source: empty input is returned as is; otherwise
run the abbreviation pass then the prefix pass, and keep the result only when
it is strictly shorter than the input. -/
def compress_value (v : List Char) : List Char :=
  if v = [] then v
  else
    let c := stripPfxs (applyAbbrevs v)
    if c.length < v.length then c else v

/-- A line node as produced by `create_test_ast`: `type`, trimmed `value`,
1-based `line_number`, and a caller-supplied `language` tag (the constant
empty `children` list is omitted). -/
structure Node where
  type : List Char
  value : List Char
  line_number : Nat
  language : List Char
  deriving DecidableEq, Repr

/-- `create_compact_signature`: `type`, first 30 characters of the raw value,
and the language tag, joined by colons. -/
def create_compact_signature (n : Node) : List Char :=
  n.type ++ ":".data ++ n.value.take 30 ++ ":".data ++ n.language

/-- Helper for the keyword cascades: Python
`any(keyword in value for keyword in kws)`. -/
def containsAny (v : List Char) (kws : List (List Char)) : Bool :=
  kws.any (fun k => containsSub k v)

/-- `create_semantic_signature`: classify the lowercased, stripped value by the
first matching keyword family (the source repeats the keyword `fn` followed by
a space in the first family) and pair the category with the language tag. -/
def create_semantic_signature (n : Node) : List Char :=
  let v := pyStrip (pyLower n.value)
  let cat :=
    if containsAny v ["function".data, "def ".data, "fn ".data, "pub fn".data, "fn ".data] then
      "function_decl".data
    else if containsAny v ["class ".data, "struct ".data, "impl ".data, "trait ".data] then
      "type_decl".data
    else if containsAny v ["if ".data, "else".data, "match ".data, "switch ".data] then
      "control_flow".data
    else if containsAny v ["for ".data, "while ".data, "loop ".data] then
      "loop_construct".data
    else if containsAny v ["return ".data, "yield ".data, "break ".data] then
      "flow_control".data
    else if containsAny v ["import ".data, "use ".data, "extern ".data] then
      "import_statement".data
    else if containsAny v ["//".data, "/*".data, "#".data, "///".data] then
      "comment".data
    else if containsAny v ["let ".data, "var ".data, "const ".data, "mut ".data] then
      "variable_decl".data
    else "other".data
  cat ++ ":".data ++ n.language

/-- `detect_semantic_type`: the coarse classifier used only for
dictionary-inclusion eligibility. -/
def detect_semantic_type (n : Node) : List Char :=
  let v := pyStrip (pyLower n.value)
  if containsAny v ["function".data, "def ".data, "fn ".data] then "function".data
  else if containsAny v ["class ".data, "struct ".data] then "type".data
  else if containsAny v ["if ".data, "else".data] then "control".data
  else if containsAny v ["//".data, "/*".data, "#".data] then "comment".data
  else if containsAny v ["let ".data, "var ".data, "const ".data] then "variable".data
  else "statement".data

/-- `compress_type`: the fixed kind-code table with pass-through fallback. -/
def compress_type (t : List Char) : List Char :=
  if t = "line".data then "l".data
  else if t = "statement".data then "s".data
  else if t = "function".data then "f".data
  else if t = "class".data then "c".data
  else if t = "variable".data then "v".data
  else if t = "comment".data then "cm".data
  else if t = "control".data then "ctrl".data
  else t

/-- Template threaded per exact-pattern signature in phase 1. -/
structure PatTemplate where
  type : List Char
  value : List Char
  language : List Char
  deriving DecidableEq, Repr

/-- Template threaded per semantic signature in phase 1. -/
structure SemTemplate where
  type : List Char
  value : List Char
  language : List Char
  semantic_type : List Char
  deriving DecidableEq, Repr

/-- Phase-1 accumulator value for an exact-pattern signature. -/
structure PatInfo where
  count : Nat
  template : PatTemplate
  deriving DecidableEq, Repr

/-- Phase-1 accumulator value for a semantic signature. -/
structure SemInfo where
  count : Nat
  template : SemTemplate
  deriving DecidableEq, Repr

/-- A `pattern_dict` entry: dense id, template, occurrence count. -/
structure PatEntry where
  id : Nat
  template : PatTemplate
  count : Nat
  deriving DecidableEq, Repr

/-- A `semantic_dict` entry: dense id, template, occurrence count, and the
semantic type copied out of the template. -/
structure SemEntry where
  id : Nat
  template : SemTemplate
  count : Nat
  semantic_type : List Char
  deriving DecidableEq, Repr

/-- Python dict lookup on an insertion-ordered association list. -/
def assocFind {α : Type} (k : List Char) : List (List Char × α) → Option α
  | [] => none
  | (k0, v) :: rest => if k = k0 then some v else assocFind k rest

/-- `patterns[signature]["count"] += 1` (keys are unique by construction). -/
def bumpPat (k : List Char) (al : List (List Char × PatInfo)) :
    List (List Char × PatInfo) :=
  al.map (fun e => if e.1 = k then (e.1, { e.2 with count := e.2.count + 1 }) else e)

/-- `semantic_patterns[key]["count"] += 1` (keys are unique by construction). -/
def bumpSem (k : List Char) (al : List (List Char × SemInfo)) :
    List (List Char × SemInfo) :=
  al.map (fun e => if e.1 = k then (e.1, { e.2 with count := e.2.count + 1 }) else e)

/-- One iteration of phase 1 of `simulate_compression`: count the node under
both signatures, capturing a template (with compressed value) on first sight. -/
def phase1step (acc : List (List Char × PatInfo) × List (List Char × SemInfo))
    (n : Node) :
    List (List Char × PatInfo) × List (List Char × SemInfo) :=
  let sig := create_compact_signature n
  let sk := create_semantic_signature n
  let ps :=
    match assocFind sig acc.1 with
    | some _ => bumpPat sig acc.1
    | none => acc.1 ++ [(sig, ⟨1, ⟨n.type, compress_value n.value, n.language⟩⟩)]
  let ss :=
    match assocFind sk acc.2 with
    | some _ => bumpSem sk acc.2
    | none =>
      acc.2 ++ [(sk, ⟨1, ⟨n.type, compress_value n.value, n.language,
        detect_semantic_type n⟩⟩)]
  (ps, ss)

/-- Phase 1 of `simulate_compression`: one scan building both counters. -/
def phase1 (ns : List Node) :
    List (List Char × PatInfo) × List (List Char × SemInfo) :=
  ns.foldl phase1step ([], [])

/-- The fixed common-construct set of `is_common_construct`. -/
def common_construct_set : List (List Char) :=
  [ "function".data, "type".data, "control".data, "comment".data, "variable".data ]

/-- `is_common_construct`: the template's semantic type belongs to the fixed
common-construct set. -/
def is_common_construct (tpl : SemTemplate) : Bool :=
  decide (tpl.semantic_type ∈ common_construct_set)

/-- Phase 2 for the exact table: keep signatures occurring more than once,
assigning dense ids in first-seen order via the running counter. -/
def buildPatternDict : List (List Char × PatInfo) → Nat →
    List (List Char × PatEntry)
  | [], _ => []
  | (s, info) :: rest, c =>
    if info.count > 1 then
      (s, ⟨c, info.template, info.count⟩) :: buildPatternDict rest (c + 1)
    else buildPatternDict rest c

/-- Phase 2 for the semantic table: keep signatures occurring more than once or
whose template is a common construct, assigning dense ids in first-seen order. -/
def buildSemanticDict : List (List Char × SemInfo) → Nat →
    List (List Char × SemEntry)
  | [], _ => []
  | (s, info) :: rest, c =>
    if info.count > 1 ∨ is_common_construct info.template then
      (s, ⟨c, info.template, info.count, info.template.semantic_type⟩) ::
        buildSemanticDict rest (c + 1)
    else buildSemanticDict rest c

/-- One encoded record: `["S", id, line]`, `["P", id, line]`, or
`["O", compressed kind, compressed text, line]`. -/
inductive EncodedRecord where
  | S (id : Nat) (line_number : Nat)
  | P (id : Nat) (line_number : Nat)
  | O (type : List Char) (value : List Char) (line_number : Nat)
  deriving DecidableEq, Repr

/-- The `metadata` block of the compressed structure. -/
structure Metadata where
  total_nodes : Nat
  pattern_count : Nat
  semantic_count : Nat
  compression_version : List Char
  advanced_features : Bool
  deriving DecidableEq, Repr

/-- The compressed structure returned by `simulate_compression` on non-empty
input. -/
structure EncodedDocument where
  patterns : List (List Char × PatEntry)
  semantic_patterns : List (List Char × SemEntry)
  data : List EncodedRecord
  metadata : Metadata
  deriving DecidableEq, Repr

/-- Phase 3 of `simulate_compression` for a single node: semantic reference
first, then exact-pattern reference (guarded again by `count > 1`), else a
literal record. -/
def encodeNode (pd : List (List Char × PatEntry))
    (sd : List (List Char × SemEntry)) (n : Node) : EncodedRecord :=
  match assocFind (create_semantic_signature n) sd with
  | some e => .S e.id n.line_number
  | none =>
    match assocFind (create_compact_signature n) pd with
    | some e =>
      if e.count > 1 then .P e.id n.line_number
      else .O (compress_type n.type) (compress_value n.value) n.line_number
    | none => .O (compress_type n.type) (compress_value n.value) n.line_number

/-- `simulate_compression`: empty input returns the bare `{}` sentinel
(modelled as `none`); otherwise the four phases produce a document. -/
def simulate_compression (nodes : List Node) : Option EncodedDocument :=
  if nodes.isEmpty then none
  else
    let pats := (phase1 nodes).1
    let sems := (phase1 nodes).2
    let pattern_dict := buildPatternDict pats 0
    let semantic_dict := buildSemanticDict sems 0
    let data := nodes.map (encodeNode pattern_dict semantic_dict)
    some
      { patterns := pattern_dict
      , semantic_patterns := semantic_dict
      , data := data
      , metadata :=
        { total_nodes := nodes.length
        , pattern_count := pattern_dict.length
        , semantic_count := semantic_dict.length
        , compression_version := "5.0".data
        , advanced_features := true } }

/-- A reconstructed node as built by `simulate_decompression` (`children` is
always empty and omitted; only semantic references carry a semantic type). -/
structure DecNode where
  type : List Char
  value : List Char
  line_number : Nat
  language : List Char
  semantic_type : Option (List Char)
  deriving DecidableEq, Repr

/-- The decoder's linear search of the exact table for an entry with the given
id, in insertion order, first match wins. -/
def findById (i : Nat) : List (List Char × PatEntry) → Option PatEntry
  | [] => none
  | (_, e) :: rest => if e.id = i then some e else findById i rest

/-- The decoder's linear search of the semantic table for an entry with the
given id. -/
def findSemById (i : Nat) : List (List Char × SemEntry) → Option SemEntry
  | [] => none
  | (_, e) :: rest => if e.id = i then some e else findSemById i rest

/-- Decode one record: references resolve through the corresponding table and
yield the template's fields (`none` when the id is absent — the source then
appends nothing); literals are rebuilt with the placeholder language
`unknown`. -/
def decodeRecord (pats : List (List Char × PatEntry))
    (sems : List (List Char × SemEntry)) : EncodedRecord → Option DecNode
  | .P i ln =>
    (findById i pats).map
      (fun e => ⟨e.template.type, e.template.value, ln, e.template.language, none⟩)
  | .S i ln =>
    (findSemById i sems).map
      (fun e => ⟨e.template.type, e.template.value, ln, e.template.language,
        some e.template.semantic_type⟩)
  | .O t v ln => some ⟨t, v, ln, "unknown".data, none⟩

/-- `simulate_decompression`: the `{}` sentinel (and the missing-`data` case)
decodes to the empty list; otherwise each record decodes in order, and records
whose id is absent from their table are silently skipped. -/
def simulate_decompression : Option EncodedDocument → List DecNode
  | none => []
  | some d => d.data.filterMap (decodeRecord d.patterns d.semantic_patterns)

/-- Does a record's reference resolve against the document's tables?
(Literals always do.) -/
def resolvesB (pats : List (List Char × PatEntry))
    (sems : List (List Char × SemEntry)) : EncodedRecord → Bool
  | .P i _ => (findById i pats).isSome
  | .S i _ => (findSemById i sems).isSome
  | .O _ _ _ => true

/-- The line number carried by an encoded record. -/
def recLineNumber : EncodedRecord → Nat
  | .S _ ln => ln
  | .P _ ln => ln
  | .O _ _ ln => ln

/-! ## Helper lemmas -/

theorem assocFind_mem {α : Type} (k : List Char) (al : List (List Char × α)) (v : α)
    (h : assocFind k al = some v) : ∃ k0, (k0, v) ∈ al := by
  induction al with
  | nil => simp [assocFind] at h
  | cons hd tl ih =>
    obtain ⟨k0, v0⟩ := hd
    simp only [assocFind] at h
    split at h
    · exact ⟨k0, by simp [Option.some_inj.mp h]⟩
    · obtain ⟨k1, hk1⟩ := ih h
      exact ⟨k1, List.mem_cons_of_mem _ hk1⟩

theorem findById_isSome (i : Nat) (al : List (List Char × PatEntry))
    (h : ∃ p ∈ al, p.2.id = i) : (findById i al).isSome = true := by
  induction al with
  | nil => obtain ⟨p, hp, _⟩ := h; exact absurd hp (List.not_mem_nil p)
  | cons hd tl ih =>
    obtain ⟨k0, e0⟩ := hd
    simp only [findById]
    split
    · rfl
    · next hne =>
      apply ih
      obtain ⟨p, hp, hpid⟩ := h
      rcases List.mem_cons.mp hp with heq | hmem
      · exact absurd (by rw [heq] at hpid; exact hpid) hne
      · exact ⟨p, hmem, hpid⟩

theorem findSemById_isSome (i : Nat) (al : List (List Char × SemEntry))
    (h : ∃ p ∈ al, p.2.id = i) : (findSemById i al).isSome = true := by
  induction al with
  | nil => obtain ⟨p, hp, _⟩ := h; exact absurd hp (List.not_mem_nil p)
  | cons hd tl ih =>
    obtain ⟨k0, e0⟩ := hd
    simp only [findSemById]
    split
    · rfl
    · next hne =>
      apply ih
      obtain ⟨p, hp, hpid⟩ := h
      rcases List.mem_cons.mp hp with heq | hmem
      · exact absurd (by rw [heq] at hpid; exact hpid) hne
      · exact ⟨p, hmem, hpid⟩

theorem decodeRecord_isSome_eq (pats : List (List Char × PatEntry))
    (sems : List (List Char × SemEntry)) (r : EncodedRecord) :
    (decodeRecord pats sems r).isSome = resolvesB pats sems r := by
  cases r <;> simp [decodeRecord, resolvesB]

theorem decodeRecord_line (pats : List (List Char × PatEntry))
    (sems : List (List Char × SemEntry)) (r : EncodedRecord) (dn : DecNode)
    (h : decodeRecord pats sems r = some dn) :
    dn.line_number = recLineNumber r := by
  cases r with
  | P i ln =>
    simp only [decodeRecord, Option.map_eq_some'] at h
    obtain ⟨e, _, rfl⟩ := h
    rfl
  | S i ln =>
    simp only [decodeRecord, Option.map_eq_some'] at h
    obtain ⟨e, _, rfl⟩ := h
    rfl
  | O t v ln =>
    simp only [decodeRecord, Option.some_inj] at h
    rw [← h]
    rfl

theorem filterMap_length_all {α β : Type} (f : α → Option β) :
    ∀ l : List α, (∀ a ∈ l, (f a).isSome = true) →
      (l.filterMap f).length = l.length := by
  intro l
  induction l with
  | nil => intro _; rfl
  | cons a tl ih =>
    intro h
    have ha := h a (List.mem_cons_self a tl)
    obtain ⟨b, hb⟩ := Option.isSome_iff_exists.mp ha
    rw [List.filterMap_cons, hb]
    simp only [List.length_cons]
    rw [ih (fun x hx => h x (List.mem_cons_of_mem _ hx))]

theorem filterMap_filter_isSome {α β : Type} (f : α → Option β) :
    ∀ l : List α,
      (l.filter (fun a => (f a).isSome)).filterMap f = l.filterMap f := by
  intro l
  induction l with
  | nil => rfl
  | cons a tl ih =>
    rw [List.filter_cons, List.filterMap_cons]
    cases hfa : f a with
    | none =>
      simp only [hfa, Option.isSome_none]
      simpa using ih
    | some b =>
      simp only [hfa, Option.isSome_some, if_pos]
      rw [List.filterMap_cons, hfa, ih]

theorem decode_map_line (pats : List (List Char × PatEntry))
    (sems : List (List Char × SemEntry)) :
    ∀ rs : List EncodedRecord, (∀ r ∈ rs, resolvesB pats sems r = true) →
      (rs.filterMap (decodeRecord pats sems)).map (fun n => n.line_number) =
        rs.map recLineNumber := by
  intro rs
  induction rs with
  | nil => intro _; rfl
  | cons r tl ih =>
    intro h
    have hr := h r (List.mem_cons_self r tl)
    rw [← decodeRecord_isSome_eq] at hr
    obtain ⟨dn, hdn⟩ := Option.isSome_iff_exists.mp hr
    rw [List.filterMap_cons, hdn, List.map_cons, List.map_cons,
      decodeRecord_line pats sems r dn hdn,
      ih (fun x hx => h x (List.mem_cons_of_mem _ hx))]

theorem mem_buildPatternDict :
    ∀ (ps : List (List Char × PatInfo)) (c : Nat) (p : List Char × PatEntry),
      p ∈ buildPatternDict ps c → p.2.count > 1 := by
  intro ps
  induction ps with
  | nil => intro c p h; simp [buildPatternDict] at h
  | cons hd tl ih =>
    intro c p h
    obtain ⟨s, info⟩ := hd
    simp only [buildPatternDict] at h
    split at h
    · next hcount =>
      rcases List.mem_cons.mp h with heq | hmem
      · rw [heq]; exact hcount
      · exact ih _ _ hmem
    · exact ih _ _ h

theorem mem_buildSemanticDict :
    ∀ (ss : List (List Char × SemInfo)) (c : Nat) (p : List Char × SemEntry),
      p ∈ buildSemanticDict ss c →
        p.2.count > 1 ∨ p.2.semantic_type ∈ common_construct_set := by
  intro ss
  induction ss with
  | nil => intro c p h; simp [buildSemanticDict] at h
  | cons hd tl ih =>
    intro c p h
    obtain ⟨s, info⟩ := hd
    simp only [buildSemanticDict] at h
    split at h
    · next hcond =>
      rcases List.mem_cons.mp h with heq | hmem
      · rw [heq]
        rcases hcond with hc | hc
        · exact Or.inl hc
        · exact Or.inr (of_decide_eq_true hc)
      · exact ih _ _ hmem
    · exact ih _ _ h

theorem simulate_compression_eq (ns : List Node) (d : EncodedDocument)
    (h : simulate_compression ns = some d) :
    d.patterns = buildPatternDict (phase1 ns).1 0 ∧
    d.semantic_patterns = buildSemanticDict (phase1 ns).2 0 ∧
    d.data = ns.map (encodeNode d.patterns d.semantic_patterns) ∧
    d.metadata.total_nodes = ns.length := by
  unfold simulate_compression at h
  split at h
  · simp at h
  · rw [Option.some_inj] at h
    subst h
    exact ⟨rfl, rfl, rfl, rfl⟩

theorem encodeNode_resolves (pd : List (List Char × PatEntry))
    (sd : List (List Char × SemEntry)) (n : Node) :
    resolvesB pd sd (encodeNode pd sd n) = true := by
  unfold encodeNode
  split
  · next e heq =>
    obtain ⟨k0, hk0⟩ := assocFind_mem _ _ _ heq
    simp only [resolvesB]
    exact findSemById_isSome _ _ ⟨(k0, e), hk0, rfl⟩
  · next heq =>
    split
    · next e heq2 =>
      split
      · obtain ⟨k0, hk0⟩ := assocFind_mem _ _ _ heq2
        simp only [resolvesB]
        exact findById_isSome _ _ ⟨(k0, e), hk0, rfl⟩
      · simp [resolvesB]
    · simp [resolvesB]

theorem encode_data_resolves (ns : List Node) (d : EncodedDocument)
    (h : simulate_compression ns = some d) :
    ∀ r ∈ d.data, resolvesB d.patterns d.semantic_patterns r = true := by
  obtain ⟨_, _, hdd, _⟩ := simulate_compression_eq ns d h
  rw [hdd]
  intro r hr
  obtain ⟨n, _, rfl⟩ := List.mem_map.mp hr
  exact encodeNode_resolves _ _ _

theorem decode_length_of_resolves (d : EncodedDocument)
    (h : ∀ r ∈ d.data, resolvesB d.patterns d.semantic_patterns r = true) :
    (simulate_decompression (some d)).length = d.data.length := by
  unfold simulate_decompression
  apply filterMap_length_all
  intro r hr
  rw [decodeRecord_isSome_eq]
  exact h r hr

theorem encodeNode_S_mem (pd : List (List Char × PatEntry))
    (sd : List (List Char × SemEntry)) (n : Node) (i ln : Nat)
    (h : encodeNode pd sd n = .S i ln) : ∃ p ∈ sd, p.2.id = i := by
  unfold encodeNode at h
  split at h
  · next e heq =>
    obtain ⟨h1, _⟩ := EncodedRecord.S.inj h
    obtain ⟨k0, hk0⟩ := assocFind_mem _ _ _ heq
    exact ⟨(k0, e), hk0, h1⟩
  · next heq =>
    split at h
    · next e heq2 => split at h <;> simp at h
    · simp at h

theorem encodeNode_P_mem (pd : List (List Char × PatEntry))
    (sd : List (List Char × SemEntry)) (n : Node) (i ln : Nat)
    (h : encodeNode pd sd n = .P i ln) : ∃ p ∈ pd, p.2.id = i := by
  unfold encodeNode at h
  split at h
  · next e heq => simp at h
  · next heq =>
    split at h
    · next e heq2 =>
      split at h
      · obtain ⟨h1, _⟩ := EncodedRecord.P.inj h
        obtain ⟨k0, hk0⟩ := assocFind_mem _ _ _ heq2
        exact ⟨(k0, e), hk0, h1⟩
      · simp at h
    · simp at h

/-! ## Claim theorems -/

set_option maxRecDepth 40000

/-- C1 (counterexample): the claim's notion of validity (all Semantic and
Pattern records reference present entry ids) does not constrain
`metadata.totalNodes`; the document below is valid in that sense, has no
records, yet claims one total node, so the decoded length differs from
`metadata.totalNodes`. -/
theorem C1_count_counterexample :
    (∀ r ∈ (⟨[], [], [], ⟨1, 0, 0, "5.0".data, true⟩⟩ : EncodedDocument).data,
        resolvesB [] [] r = true) ∧
    (simulate_decompression
        (some ⟨[], [], [], ⟨1, 0, 0, "5.0".data, true⟩⟩)).length ≠
      (⟨[], [], [], ⟨1, 0, 0, "5.0".data, true⟩⟩ :
        EncodedDocument).metadata.total_nodes := by
  decide

/-- C1 (amended): for every valid `EncodedDocument` whose
`metadata.totalNodes` agrees with its number of records, the decoder returns
exactly `metadata.totalNodes` records; and decoding the encoder's output
always yields exactly as many records as there were input records. -/
theorem C1_round_trip_count :
    (∀ d : EncodedDocument,
        (∀ r ∈ d.data, resolvesB d.patterns d.semantic_patterns r = true) →
        d.metadata.total_nodes = d.data.length →
        (simulate_decompression (some d)).length = d.metadata.total_nodes) ∧
    (∀ ns : List Node,
        (simulate_decompression (simulate_compression ns)).length = ns.length) := by
  constructor
  · intro d hv ht
    rw [ht]
    exact decode_length_of_resolves d hv
  · intro ns
    cases hcomp : simulate_compression ns with
    | none =>
      unfold simulate_compression at hcomp
      split at hcomp
      · next hemp =>
        rw [List.isEmpty_iff.mp hemp]
        rfl
      · simp at hcomp
    | some d =>
      have h1 := decode_length_of_resolves d (encode_data_resolves ns d hcomp)
      have h2 := (simulate_compression_eq ns d hcomp).2.2.1
      rw [h1, h2, List.length_map]

/-- C1 witness: the amended theorem applied to a concrete valid document and a
concrete one-record input. -/
theorem C1_round_trip_count_witness :
    (simulate_decompression
        (some ⟨[], [], [EncodedRecord.O ("l".data) ("zz".data) 1],
          ⟨1, 0, 0, "5.0".data, true⟩⟩)).length = 1 ∧
    (simulate_decompression
        (simulate_compression [⟨"line".data, "zz".data, 1, "demo".data⟩])).length = 1 :=
  ⟨C1_round_trip_count.1
      ⟨[], [], [EncodedRecord.O ("l".data) ("zz".data) 1],
        ⟨1, 0, 0, "5.0".data, true⟩⟩ (by decide) (by decide),
    C1_round_trip_count.2 [⟨"line".data, "zz".data, 1, "demo".data⟩]⟩

/-- C2 (counterexample): a document whose first record references the absent
pattern id 5 does not fail to decode; the offending record is silently skipped
and the remaining literal is still decoded — a partial decode, with no error
value anywhere in the decoder's behaviour. -/
theorem C2_decode_error_counterexample :
    simulate_decompression
        (some ⟨[], [], [EncodedRecord.P 5 1, EncodedRecord.O ("l".data) ("x".data) 2],
          ⟨2, 0, 0, "5.0".data, true⟩⟩) =
      [⟨"l".data, "x".data, 2, "unknown".data, none⟩] := by
  decide

/-- C2 (amended): decoding never raises an error; a Semantic or Pattern record
whose entryId is absent from its table is silently skipped, so decoding a
document equals decoding the same document restricted to its resolvable
records, and the output length counts exactly the resolvable records. -/
theorem C2_silent_skip (d : EncodedDocument) :
    simulate_decompression (some d) =
      simulate_decompression
        (some { d with
          data := d.data.filter (fun r => resolvesB d.patterns d.semantic_patterns r) }) ∧
    (simulate_decompression (some d)).length =
      (d.data.filter (fun r => resolvesB d.patterns d.semantic_patterns r)).length := by
  have hpred :
      (d.data.filter (fun r => resolvesB d.patterns d.semantic_patterns r)) =
        (d.data.filter
          (fun r => (decodeRecord d.patterns d.semantic_patterns r).isSome)) := by
    simp only [decodeRecord_isSome_eq]
  have hmain :
      simulate_decompression (some d) =
        simulate_decompression
          (some { d with
            data := d.data.filter
              (fun r => resolvesB d.patterns d.semantic_patterns r) }) := by
    show d.data.filterMap (decodeRecord d.patterns d.semantic_patterns) =
      (d.data.filter (fun r => resolvesB d.patterns d.semantic_patterns r)).filterMap
        (decodeRecord d.patterns d.semantic_patterns)
    rw [hpred, filterMap_filter_isSome]
  refine ⟨hmain, ?_⟩
  rw [hmain]
  show ((d.data.filter (fun r => resolvesB d.patterns d.semantic_patterns r)).filterMap
      (decodeRecord d.patterns d.semantic_patterns)).length =
    (d.data.filter (fun r => resolvesB d.patterns d.semantic_patterns r)).length
  apply filterMap_length_all
  intro r hr
  rw [decodeRecord_isSome_eq]
  exact (List.mem_filter.mp hr).2

/-- C9 (counterexample): encoding the empty sequence does not yield any
populated `EncodedDocument` (in particular none whose `metadata.totalNodes`
is 0) — the source returns the bare `\x7b\x7d` sentinel, modelled as `none`. -/
theorem C9_empty_counterexample :
    ¬ ∃ d : EncodedDocument,
        simulate_compression [] = some d ∧ d.metadata.total_nodes = 0 := by
  intro h
  obtain ⟨d, hd, _⟩ := h
  simp [simulate_compression] at hd

/-- C9 (amended): encoding an empty LineRecord sequence yields the bare empty
mapping (no tables, no records list, no metadata block), and decoding that
sentinel returns the empty sequence. -/
theorem C9_empty_input :
    simulate_compression ([] : List Node) = none ∧
    simulate_decompression (simulate_compression ([] : List Node)) = [] := by
  decide

/-- Concrete fixture: first of two duplicated comment lines. -/
def demoNote1 : Node := ⟨"line".data, "# note".data, 1, "demo".data⟩

/-- Concrete fixture: second of two duplicated comment lines. -/
def demoNote2 : Node := ⟨"line".data, "# note".data, 2, "demo".data⟩

/-- Concrete fixture: the document the encoder produces for the two duplicated
comment lines (the lines are exact duplicates, so the exact table has an
entry, and they classify as comments, so the semantic table has one too; both
records come out as Semantic references). -/
def demoNoteDoc : EncodedDocument :=
  ⟨[("line:# note:demo".data, ⟨0, ⟨"line".data, "# note".data, "demo".data⟩, 2⟩)],
    [("comment:demo".data,
      ⟨0, ⟨"line".data, "# note".data, "demo".data, "comment".data⟩, 2,
        "comment".data⟩)],
    [EncodedRecord.S 0 1, EncodedRecord.S 0 2],
    ⟨2, 1, 1, "5.0".data, true⟩⟩

/-- C3 (confirmed): for any node of the input, when its semantic signature has
an entry in the emitted semantic table the encoder emits a Semantic record for
it (even when the exact signature also has a pattern-table entry); when the
semantic lookup misses, a Pattern record is emitted exactly on a pattern-table
hit — whose entry necessarily has occurrenceCount > 1 — and a Literal record
otherwise. -/
theorem C3_semantic_priority (ns : List Node) (d : EncodedDocument)
    (hd : simulate_compression ns = some d) (i : Nat) (n : Node)
    (hn : ns.get? i = some n) :
    (∀ e, assocFind (create_semantic_signature n) d.semantic_patterns = some e →
        d.data.get? i = some (EncodedRecord.S e.id n.line_number)) ∧
    (assocFind (create_semantic_signature n) d.semantic_patterns = none →
      (∀ e, assocFind (create_compact_signature n) d.patterns = some e →
          e.count > 1 ∧ d.data.get? i = some (EncodedRecord.P e.id n.line_number)) ∧
      (assocFind (create_compact_signature n) d.patterns = none →
        d.data.get? i = some (EncodedRecord.O (compress_type n.type)
          (compress_value n.value) n.line_number))) := by
  obtain ⟨hp, _, hdd, _⟩ := simulate_compression_eq ns d hd
  have hget : d.data.get? i =
      some (encodeNode d.patterns d.semantic_patterns n) := by
    rw [hdd, List.get?_map, hn]
    rfl
  refine ⟨?_, ?_⟩
  · intro e he
    rw [hget]
    unfold encodeNode
    rw [he]
  · intro hnone
    refine ⟨?_, ?_⟩
    · intro e he
      have hc : e.count > 1 := by
        obtain ⟨k0, hk0⟩ := assocFind_mem _ _ _ he
        rw [hp] at hk0
        exact mem_buildPatternDict _ _ _ hk0
      refine ⟨hc, ?_⟩
      rw [hget]
      unfold encodeNode
      rw [hnone, he]
      simp [hc]
    · intro hnone2
      rw [hget]
      unfold encodeNode
      rw [hnone, hnone2]

/-- C3 witness: the amended-free claim applied to the two duplicated comment
lines, whose encoder output is `demoNoteDoc`; both tables contain an entry for
the first line, and the emitted record is Semantic. -/
theorem C3_semantic_priority_witness :
    ([demoNote1, demoNote2].get? 0 = some demoNote1) ∧
    ((∀ e, assocFind (create_semantic_signature demoNote1)
          demoNoteDoc.semantic_patterns = some e →
        demoNoteDoc.data.get? 0 = some (EncodedRecord.S e.id demoNote1.line_number)) ∧
    (assocFind (create_semantic_signature demoNote1)
        demoNoteDoc.semantic_patterns = none →
      (∀ e, assocFind (create_compact_signature demoNote1)
            demoNoteDoc.patterns = some e →
          e.count > 1 ∧ demoNoteDoc.data.get? 0 =
            some (EncodedRecord.P e.id demoNote1.line_number)) ∧
      (assocFind (create_compact_signature demoNote1)
          demoNoteDoc.patterns = none →
        demoNoteDoc.data.get? 0 = some (EncodedRecord.O
          (compress_type demoNote1.type) (compress_value demoNote1.value)
          demoNote1.line_number)))) :=
  ⟨by decide,
    C3_semantic_priority [demoNote1, demoNote2] demoNoteDoc (by decide) 0
      demoNote1 (by decide)⟩

/-- C4 (confirmed): in every encoder-produced document, no exact-pattern entry
has occurrenceCount 1, and every semantic entry has occurrenceCount > 1 or a
semanticType in the common-construct set. -/
theorem C4_dictionary_minimality (ns : List Node) (d : EncodedDocument)
    (hd : simulate_compression ns = some d) :
    (∀ p ∈ d.patterns, p.2.count ≠ 1) ∧
    (∀ p ∈ d.semantic_patterns,
        p.2.count > 1 ∨ p.2.semantic_type ∈ common_construct_set) := by
  obtain ⟨hp, hs, _, _⟩ := simulate_compression_eq ns d hd
  constructor
  · intro p hmem
    rw [hp] at hmem
    have := mem_buildPatternDict _ _ _ hmem
    omega
  · intro p hmem
    rw [hs] at hmem
    exact mem_buildSemanticDict _ _ _ hmem

/-- C4 witness: the dictionary-minimality invariant on the concrete
two-comment-line document. -/
theorem C4_dictionary_minimality_witness :
    (∀ p ∈ demoNoteDoc.patterns, p.2.count ≠ 1) ∧
    (∀ p ∈ demoNoteDoc.semantic_patterns,
        p.2.count > 1 ∨ p.2.semantic_type ∈ common_construct_set) :=
  C4_dictionary_minimality [demoNote1, demoNote2] demoNoteDoc (by decide)

/-- C10 (confirmed): every Semantic record the encoder emits carries the id of
some entry of the emitted semantic table, every Pattern record the id of some
entry of the emitted pattern table; consequently every record of an
encoder-produced document resolves and decoding skips nothing. -/
theorem C10_references_resolve (ns : List Node) (d : EncodedDocument)
    (hd : simulate_compression ns = some d) :
    (∀ i ln, EncodedRecord.S i ln ∈ d.data →
        ∃ p ∈ d.semantic_patterns, p.2.id = i) ∧
    (∀ i ln, EncodedRecord.P i ln ∈ d.data →
        ∃ p ∈ d.patterns, p.2.id = i) ∧
    (∀ r ∈ d.data, resolvesB d.patterns d.semantic_patterns r = true) ∧
    (simulate_decompression (some d)).length = d.data.length := by
  obtain ⟨_, _, hdd, _⟩ := simulate_compression_eq ns d hd
  refine ⟨?_, ?_, encode_data_resolves ns d hd,
    decode_length_of_resolves d (encode_data_resolves ns d hd)⟩
  · intro i ln hmem
    rw [hdd] at hmem
    obtain ⟨n, _, heq⟩ := List.mem_map.mp hmem
    exact encodeNode_S_mem _ _ _ _ _ heq
  · intro i ln hmem
    rw [hdd] at hmem
    obtain ⟨n, _, heq⟩ := List.mem_map.mp hmem
    exact encodeNode_P_mem _ _ _ _ _ heq

/-- C10 witness: the resolution invariant on the concrete two-comment-line
document. -/
theorem C10_references_resolve_witness :
    (∀ i ln, EncodedRecord.S i ln ∈ demoNoteDoc.data →
        ∃ p ∈ demoNoteDoc.semantic_patterns, p.2.id = i) ∧
    (∀ i ln, EncodedRecord.P i ln ∈ demoNoteDoc.data →
        ∃ p ∈ demoNoteDoc.patterns, p.2.id = i) ∧
    (∀ r ∈ demoNoteDoc.data,
        resolvesB demoNoteDoc.patterns demoNoteDoc.semantic_patterns r = true) ∧
    (simulate_decompression (some demoNoteDoc)).length = demoNoteDoc.data.length :=
  C10_references_resolve [demoNote1, demoNote2] demoNoteDoc (by decide)

/-- C5 (counterexample): the claim quantifies over every `EncodedDocument`,
but when a reference does not resolve the decoder skips the record, shifting
every later output left: below, the first decoded record carries line number 9
while the first encoded record carries line number 7. -/
theorem C5_order_counterexample :
    (simulate_decompression
        (some ⟨[], [], [EncodedRecord.P 0 7, EncodedRecord.O ("l".data) ("x".data) 9],
          ⟨2, 0, 0, "5.0".data, true⟩⟩)).map (fun n => n.line_number) = [9] ∧
    ([EncodedRecord.P 0 7,
        EncodedRecord.O ("l".data) ("x".data) 9].map recLineNumber) = [7, 9] := by
  decide

/-- C5 (amended): for every `EncodedDocument` all of whose Semantic and
Pattern records reference present entry ids, the i-th decoded record's
lineNumber equals the lineNumber carried by the i-th encoded record, and
decoding preserves the record order (the two line-number sequences are
equal). -/
theorem C5_order_preservation (d : EncodedDocument)
    (hv : ∀ r ∈ d.data, resolvesB d.patterns d.semantic_patterns r = true) :
    (simulate_decompression (some d)).map (fun n => n.line_number) =
      d.data.map recLineNumber := by
  unfold simulate_decompression
  exact decode_map_line _ _ _ hv

/-- C5 witness: order preservation on a concrete valid document with one
resolving Pattern reference and one literal. -/
theorem C5_order_preservation_witness :
    (simulate_decompression
        (some ⟨[("k".data, ⟨0, ⟨"line".data, "x".data, "demo".data⟩, 2⟩)], [],
          [EncodedRecord.P 0 3, EncodedRecord.O ("l".data) ("y".data) 4],
          ⟨2, 1, 0, "5.0".data, true⟩⟩)).map (fun n => n.line_number) =
      ([EncodedRecord.P 0 3,
          EncodedRecord.O ("l".data) ("y".data) 4].map recLineNumber) :=
  C5_order_preservation
    ⟨[("k".data, ⟨0, ⟨"line".data, "x".data, "demo".data⟩, 2⟩)], [],
      [EncodedRecord.P 0 3, EncodedRecord.O ("l".data) ("y".data) 4],
      ⟨2, 1, 0, "5.0".data, true⟩⟩ (by decide)

/-- C6 (confirmed): the two-line input with texts `fn foo() \x7b\x7d` and
`fn bar() \x7b\x7d` under a common language tag gets one shared semantic
signature (`function_decl:rust`), collapses to a single semantic entry, and
after encode-then-decode both output records carry the first line's (the
template's) text even though the original texts differed. -/
theorem C6_lossy_semantic_merge :
    create_semantic_signature ⟨"line".data, "fn foo() \x7b\x7d".data, 1, "rust".data⟩ =
      create_semantic_signature ⟨"line".data, "fn bar() \x7b\x7d".data, 2, "rust".data⟩ ∧
    create_semantic_signature ⟨"line".data, "fn foo() \x7b\x7d".data, 1, "rust".data⟩ =
      "function_decl:rust".data ∧
    (simulate_compression
        [⟨"line".data, "fn foo() \x7b\x7d".data, 1, "rust".data⟩,
          ⟨"line".data, "fn bar() \x7b\x7d".data, 2, "rust".data⟩]).map
      (fun d => d.semantic_patterns.length) = some 1 ∧
    (simulate_decompression (simulate_compression
        [⟨"line".data, "fn foo() \x7b\x7d".data, 1, "rust".data⟩,
          ⟨"line".data, "fn bar() \x7b\x7d".data, 2, "rust".data⟩])).map
      (fun n => n.value) = ["fn foo() \x7b\x7d".data, "fn foo() \x7b\x7d".data] ∧
    ("fn foo() \x7b\x7d".data ≠ "fn bar() \x7b\x7d".data) := by
  decide

/-- C7 (counterexample): the source strips a prefix whenever the whole text's
length exceeds the prefix length plus 2, not when the remaining length does:
for `getabc` the remaining length after `get` is 3, which does not exceed
3 + 2, yet the compressor strips the prefix and returns `abc`. -/
theorem C7_strip_counterexample :
    compress_value ("getabc".data) = "abc".data ∧
    ¬ (("getabc".data.length - "get".data.length) > "get".data.length + 2) := by
  decide

/-- C7 (amended): the prefix stage strips a prefix from the fixed list exactly
when the current working text begins with it case-insensitively and the
current text's total length exceeds the prefix length plus 2 (prefixes are
tried in order against the running result); and the compressor returns the
original text unchanged whenever the fully transformed result is not strictly
shorter, so its output is the input or something strictly shorter. -/
theorem C7_value_compressor (v s p : List Char) (hp : p ∈ pfxList) :
    (stripOne s p ≠ s →
      (p.isPrefixOf (pyLower s) ∧ s.length > p.length + 2) ∧
        stripOne s p = s.drop p.length) ∧
    ((p.isPrefixOf (pyLower s) ∧ s.length > p.length + 2) →
      stripOne s p = s.drop p.length) ∧
    (compress_value v = v ∨ (compress_value v).length < v.length) ∧
    (¬ (stripPfxs (applyAbbrevs v)).length < v.length → compress_value v = v) := by
  refine ⟨?_, ?_, ?_, ?_⟩
  · intro hne
    by_cases hcond : p.isPrefixOf (pyLower s) ∧ s.length > p.length + 2
    · exact ⟨hcond, by unfold stripOne; rw [if_pos hcond]⟩
    · exact absurd (by unfold stripOne; rw [if_neg hcond]) hne
  · intro hcond
    unfold stripOne
    rw [if_pos hcond]
  · unfold compress_value
    split
    · exact Or.inl rfl
    · dsimp only
      split
      · next hlt => exact Or.inr hlt
      · exact Or.inl rfl
  · intro hnlt
    unfold compress_value
    split
    · rfl
    · dsimp only
      rw [if_neg hnlt]

/-- C7 witness: the amended characterisation applied at the prefix `get` and
the concrete strings `getabc` (stripped, giving a strictly shorter result) and
`ab` (too short to strip). -/
theorem C7_value_compressor_witness :
    ("get".data ∈ pfxList) ∧
    ((stripOne ("ab".data) ("get".data) ≠ "ab".data →
      ("get".data.isPrefixOf (pyLower ("ab".data)) ∧
          "ab".data.length > "get".data.length + 2) ∧
        stripOne ("ab".data) ("get".data) = "ab".data.drop ("get".data.length)) ∧
    (("get".data.isPrefixOf (pyLower ("ab".data)) ∧
        "ab".data.length > "get".data.length + 2) →
      stripOne ("ab".data) ("get".data) = "ab".data.drop ("get".data.length)) ∧
    (compress_value ("getabc".data) = "getabc".data ∨
      (compress_value ("getabc".data)).length < "getabc".data.length) ∧
    (¬ (stripPfxs (applyAbbrevs ("getabc".data))).length < "getabc".data.length →
      compress_value ("getabc".data) = "getabc".data)) :=
  ⟨by decide, C7_value_compressor ("getabc".data) ("ab".data) ("get".data) (by decide)⟩

/-- C8 (counterexample): the exact signature is built from the raw text, so
two records identical except for the letter case of their text get different
exact signatures. -/
theorem C8_case_counterexample :
    pyLower (Node.value ⟨"line".data, "A".data, 1, "rust".data⟩) =
      pyLower (Node.value ⟨"line".data, "a".data, 1, "rust".data⟩) ∧
    create_compact_signature ⟨"line".data, "A".data, 1, "rust".data⟩ ≠
      create_compact_signature ⟨"line".data, "a".data, 1, "rust".data⟩ := by
  decide

/-- C8 (amended): only the semantic signature is case-insensitive — two
records identical except for the letter case of their text always get the same
semantic signature — while the exact signature uses the first 30 characters of
the text verbatim and is case-sensitive (witnessed by a concrete pair). -/
theorem C8_case_insensitivity (a b : Node)
    (ht : a.type = b.type) (hl : a.language = b.language)
    (hn : a.line_number = b.line_number)
    (hv : pyLower a.value = pyLower b.value) :
    create_semantic_signature a = create_semantic_signature b ∧
    ∃ a2 b2 : Node, a2.type = b2.type ∧ a2.language = b2.language ∧
      a2.line_number = b2.line_number ∧ pyLower a2.value = pyLower b2.value ∧
      create_compact_signature a2 ≠ create_compact_signature b2 := by
  constructor
  · unfold create_semantic_signature
    rw [hv, hl]
  · refine ⟨⟨"line".data, "A".data, 1, "rust".data⟩,
      ⟨"line".data, "a".data, 1, "rust".data⟩, ?_⟩
    refine ⟨rfl, rfl, rfl, by decide, by decide⟩

/-- C8 witness: the amended claim applied to two records whose texts are
`Fn X` and `fn x`. -/
theorem C8_case_insensitivity_witness :
    (pyLower (Node.value ⟨"line".data, "Fn X".data, 4, "rust".data⟩) =
      pyLower (Node.value ⟨"line".data, "fn x".data, 4, "rust".data⟩)) ∧
    (create_semantic_signature ⟨"line".data, "Fn X".data, 4, "rust".data⟩ =
      create_semantic_signature ⟨"line".data, "fn x".data, 4, "rust".data⟩ ∧
    ∃ a2 b2 : Node, a2.type = b2.type ∧ a2.language = b2.language ∧
      a2.line_number = b2.line_number ∧ pyLower a2.value = pyLower b2.value ∧
      create_compact_signature a2 ≠ create_compact_signature b2) :=
  ⟨by decide,
    C8_case_insensitivity ⟨"line".data, "Fn X".data, 4, "rust".data⟩
      ⟨"line".data, "fn x".data, 4, "rust".data⟩ rfl rfl rfl (by decide)⟩

end Nexus
